import Mathlib

/-!
Verification of the `EasyPrivateVoting` Aztec contract (`src/src/main.nr`).

Modelling conventions:
- Noir `Field` elements (candidate ids, tally counts, addresses, nullifiers)
  are modelled as `Nat`. The contract performs only the increment
  `tally + 1` on field values; wrap-around at the BN254 scalar modulus
  (≈ 2^254, reachable only after that many successful votes) is abstracted.
- `AztecAddress` values are field elements, hence also `Nat`.
- The `u32` block number is a `Nat` (the contract stores it once and never
  computes with it).
- The public storage (`Storage` struct, main.nr lines 13-19) is the record
  `State`; the `Map<Field, PublicMutable<Field>>` tally is a total function
  `Nat → Nat` defaulting to `0`, matching Aztec public storage slots that
  read as zero until first written.
- Public functions that can fail via `assert` return `Except Err State`.
- The private phase of `cast_vote` (key oracle `get_public_keys`,
  `request_nsk_app`, `std::hash::pedersen_hash`) depends on host/stdlib
  primitives outside this repository; they enter the model as the abstract
  function fields of `PrivateEnv`, so every theorem quantifies over them.
-/

namespace EasyPrivateVoting

/-- The contract's failure modes (spec §7 taxonomy): `VotingEnded` is the
`"Vote has ended"` assert of `add_to_tally_public`, `Unauthorized` the
`"Only admin can end vote"` assert of `end_vote`, and `DuplicateVote` the
host ledger's rejection of an already-present nullifier. -/
inductive Err where
  | VotingEnded
  | Unauthorized
  | DuplicateVote
  deriving DecidableEq, Repr

/-- The contract's public storage (`Storage`, main.nr lines 13-19):
`admin : PublicMutable<AztecAddress>`, `tally : Map<Field, PublicMutable<Field>>`,
`vote_ended : PublicMutable<bool>`, `active_at_block : PublicImmutable<u32>`. -/
structure State where
  admin : Nat
  tally : Nat → Nat
  vote_ended : Bool
  active_at_block : Nat

/-- `constructor(admin)` (main.nr lines 21-27): writes the admin, sets
`vote_ended` to `false` and records the current block number. The block
number (from `context.block_number()`) is passed in as `block_number`.
Unwritten tally slots read as `0`. -/
def constructor (admin : Nat) (block_number : Nat) : State :=
  { admin := admin
    tally := fun _ => 0
    vote_ended := false
    active_at_block := block_number }

/-- `add_to_tally_public(candidate)` (main.nr lines 41-47): asserts
`vote_ended == false` (message `"Vote has ended"`), then writes
`tally.at(candidate) + 1` back to `tally.at(candidate)`. -/
def add_to_tally_public (s : State) (candidate : Nat) : Except Err State :=
  if s.vote_ended = false then
    let new_tally := s.tally candidate + 1
    Except.ok { s with tally := Function.update s.tally candidate new_tally }
  else
    Except.error Err.VotingEnded

/-- `end_vote()` (main.nr lines 49-54): the already-ended guard
`assert(storage.vote_ended.read() == false, "Vote has ended")` on line 51 is
commented out in the source, so the only check is
`assert(storage.admin.read().eq(context.msg_sender()), "Only admin can end vote")`,
after which `vote_ended` is written `true`. -/
def end_vote (s : State) (msg_sender : Nat) : Except Err State :=
  if s.admin = msg_sender then
    Except.ok { s with vote_ended := true }
  else
    Except.error Err.Unauthorized

/-- `get_vote(candidate)` (main.nr lines 56-59): reads `tally.at(candidate)`. -/
def get_vote (s : State) (candidate : Nat) : Nat :=
  s.tally candidate

/-- `get_vote_ended()` (main.nr lines 61-64): reads `vote_ended`. -/
def get_vote_ended (s : State) : Bool :=
  s.vote_ended

/-- `get_admin()` (main.nr lines 66-69): reads `admin`. -/
def get_admin (s : State) : Nat :=
  s.admin

/-- `get_active_at_block()` (main.nr lines 71-74): reads `active_at_block`. -/
def get_active_at_block (s : State) : Nat :=
  s.active_at_block

/-- The host-side key material and hash used by the private phase of
`cast_vote`: `npk_m_hash a` models `get_public_keys(a).npk_m.hash()`,
`nsk_app h` models `context.request_nsk_app(h)` (the app-siloed nullifier
secret key, already bound to this ballot's address), and `pedersen_hash`
models `std::hash::pedersen_hash`. All three live outside this repository
and are kept abstract. -/
structure PrivateEnv where
  npk_m_hash : Nat → Nat
  nsk_app : Nat → Nat
  pedersen_hash : List Nat → Nat

/-- The observable effects of the private phase of one `cast_vote` call:
the nullifier pushed by `context.push_nullifier` and the candidate argument
of the single enqueued `add_to_tally_public` call. -/
structure PrivateCall where
  pushed_nullifier : Nat
  enqueued_tally_candidate : Nat
  deriving DecidableEq, Repr

/-- The nullifier `cast_vote` derives for `msg_sender`:
`pedersen_hash([msg_sender.to_field(), secret])` with
`secret = request_nsk_app(get_public_keys(msg_sender).npk_m.hash())`
(main.nr lines 31-33). -/
def nullifier_of (env : PrivateEnv) (msg_sender : Nat) : Nat :=
  env.pedersen_hash [msg_sender, env.nsk_app (env.npk_m_hash msg_sender)]

/-- `cast_vote(candidate)` (main.nr lines 29-39), private phase: derives the
caller's nullifier, pushes it, and enqueues
`add_to_tally_public(candidate)` on this contract. -/
def cast_vote (env : PrivateEnv) (msg_sender : Nat) (candidate : Nat) : PrivateCall :=
  let msg_sender_npk_m_hash := env.npk_m_hash msg_sender
  let secret := env.nsk_app msg_sender_npk_m_hash
  let nullifier := env.pedersen_hash [msg_sender, secret]
  { pushed_nullifier := nullifier
    enqueued_tally_candidate := candidate }

/-- Modelled from the spec: the host ledger state the contract runs on —
the global nullifier set (spec §5/§6 collaborator (b), a set with
insert-if-absent semantics, modelled as the list of inserted values) together
with the contract's public storage. The host transaction layer is not part
of `src/`. -/
structure Chain where
  nullifiers : List Nat
  state : State

/-- Modelled from the spec: one `cast_vote` transaction as executed by the
transaction host (spec §4.3 and §5) — the private phase derives and inserts
the nullifier with insert-if-absent semantics (`DuplicateVote` if already
present), then the single staged public call `add_to_tally_public(candidate)`
runs; the nullifier insertion and the staged public mutation commit as one
atomic unit, so a failing transaction yields an error and no new ledger
state. This host plumbing is not part of `src/`. -/
def run_cast_vote_tx (env : PrivateEnv) (c : Chain) (msg_sender candidate : Nat) :
    Except Err Chain :=
  let pc := cast_vote env msg_sender candidate
  if pc.pushed_nullifier ∈ c.nullifiers then
    Except.error Err.DuplicateVote
  else
    match add_to_tally_public c.state pc.enqueued_tally_candidate with
    | Except.ok s =>
        Except.ok { nullifiers := pc.pushed_nullifier :: c.nullifiers, state := s }
    | Except.error e => Except.error e

/-- Modelled from the spec: the host's atomic commit boundary (spec §5) for
a whole transaction — a failed transaction leaves the ledger exactly as it
was. -/
def commitChain (c : Chain) : Except Err Chain → Chain
  | Except.ok c2 => c2
  | Except.error _ => c

/-- Modelled from the spec: the host's atomic commit boundary (spec §5) for
a single public call — a failed call leaves the public storage as it was. -/
def commitState (s : State) : Except Err State → State
  | Except.ok s2 => s2
  | Except.error _ => s

/-- The contract's externally invocable operations after construction
(spec §6 table): a `cast_vote` transaction, an `end_vote` call, and the four
view accessors. -/
inductive Op where
  | castVote (msg_sender candidate : Nat)
  | endVote (msg_sender : Nat)
  | viewVote (candidate : Nat)
  | viewVoteEnded
  | viewAdmin
  | viewActiveAtBlock

/-- One committed operation against the ledger: `cast_vote` runs as the
two-phase transaction `run_cast_vote_tx`, `end_vote` as a single public
call, and the view accessors (`#[utility] unconstrained` functions that only
call `read`) perform no write. Failures roll back via the commit helpers. -/
def stepChain (env : PrivateEnv) (c : Chain) : Op → Chain
  | Op.castVote m cand => commitChain c (run_cast_vote_tx env c m cand)
  | Op.endVote m => { c with state := commitState c.state (end_vote c.state m) }
  | Op.viewVote _ => c
  | Op.viewVoteEnded => c
  | Op.viewAdmin => c
  | Op.viewActiveAtBlock => c

/-- A sequence of committed operations. -/
def runOps (env : PrivateEnv) (c : Chain) (ops : List Op) : Chain :=
  ops.foldl (stepChain env) c

/-! Concrete instances used by the witnesses. -/

/-- A concrete private environment for witnesses. -/
def env0 : PrivateEnv :=
  { npk_m_hash := id, nsk_app := id, pedersen_hash := List.sum }

/-- A concrete already-ended state for witnesses. -/
def endedState : State :=
  { admin := 7, tally := fun _ => 0, vote_ended := true, active_at_block := 3 }

/-- A concrete ledger whose voting has ended. -/
def endedChain : Chain :=
  { nullifiers := [], state := endedState }

/-- A fresh ledger right after construction with admin `7` at block `3`. -/
def openChain : Chain :=
  { nullifiers := [], state := constructor 7 3 }

/-- The ledger after voter `5` successfully votes for candidate `3` on
`openChain`. -/
def chain1 : Chain :=
  commitChain openChain (run_cast_vote_tx env0 openChain 5 3)

/-- Unfolding equation for `run_cast_vote_tx`: the transaction first checks
the caller's nullifier against the global set, then applies the single
staged `add_to_tally_public` call. -/
theorem run_cast_vote_tx_eq (env : PrivateEnv) (c : Chain) (m cand : Nat) :
    run_cast_vote_tx env c m cand =
      if nullifier_of env m ∈ c.nullifiers then Except.error Err.DuplicateVote
      else
        match add_to_tally_public c.state cand with
        | Except.ok s =>
            Except.ok { nullifiers := nullifier_of env m :: c.nullifiers, state := s }
        | Except.error e => Except.error e := rfl

/-- C1: when the staged public call of `cast_vote` fails (with `VotingEnded`
once `vote_ended` is `true`), the whole transaction is rolled back
atomically: the committed ledger — nullifier set and public storage alike —
is exactly the pre-transaction ledger, and (when the voter's nullifier was
fresh) the reported failure is `VotingEnded`. -/
theorem cast_vote_tx_rollback_on_public_failure
    (env : PrivateEnv) (c : Chain) (m cand : Nat) (e : Err)
    (h : add_to_tally_public c.state cand = Except.error e) :
    commitChain c (run_cast_vote_tx env c m cand) = c ∧
    (nullifier_of env m ∉ c.nullifiers →
      run_cast_vote_tx env c m cand = Except.error Err.VotingEnded) := by
  have he : e = Err.VotingEnded := by
    unfold add_to_tally_public at h
    split at h
    · exact Except.noConfusion h
    · exact (Except.error.inj h).symm
  subst he
  constructor
  · rw [run_cast_vote_tx_eq]
    by_cases hmem : nullifier_of env m ∈ c.nullifiers
    · rw [if_pos hmem]
      rfl
    · rw [if_neg hmem, h]
      rfl
  · intro hn
    rw [run_cast_vote_tx_eq, if_neg hn, h]

/-- C1 witness: on the concrete ended ledger, voter 5's vote for candidate 3
fails with `VotingEnded` and commits nothing. -/
theorem cast_vote_tx_rollback_on_public_failure_witness :
    commitChain endedChain (run_cast_vote_tx env0 endedChain 5 3) = endedChain ∧
    (nullifier_of env0 5 ∉ endedChain.nullifiers →
      run_cast_vote_tx env0 endedChain 5 3 = Except.error Err.VotingEnded) :=
  cast_vote_tx_rollback_on_public_failure env0 endedChain 5 3 Err.VotingEnded rfl

/-- C2: the nullifier `cast_vote` pushes is a function of the private
environment (the caller's key material, siloed to this ballot) and the
caller only: two runs by the same voter on the same ballot push the same
nullifier whatever the candidate arguments, and that value is
`nullifier_of env m`, which does not mention the candidate. -/
theorem nullifier_candidate_independent (env : PrivateEnv) (m cand1 cand2 : Nat) :
    (cast_vote env m cand1).pushed_nullifier = (cast_vote env m cand2).pushed_nullifier ∧
    (cast_vote env m cand1).pushed_nullifier = nullifier_of env m :=
  ⟨rfl, rfl⟩

/-- C3: once a voter's `cast_vote` transaction has committed, any second
`cast_vote` transaction by the same voter — same or different candidate —
fails with `DuplicateVote` at the nullifier insert-if-absent step, commits
nothing, and leaves every `get_vote` value (and the whole ledger) unchanged. -/
theorem second_vote_rejected_duplicate
    (env : PrivateEnv) (c c1 : Chain) (m cand1 cand2 : Nat)
    (h : run_cast_vote_tx env c m cand1 = Except.ok c1) :
    run_cast_vote_tx env c1 m cand2 = Except.error Err.DuplicateVote ∧
    commitChain c1 (run_cast_vote_tx env c1 m cand2) = c1 ∧
    ∀ cand, get_vote (commitChain c1 (run_cast_vote_tx env c1 m cand2)).state cand =
      get_vote c1.state cand := by
  have hmem : nullifier_of env m ∈ c1.nullifiers := by
    rw [run_cast_vote_tx_eq] at h
    split at h
    · exact Except.noConfusion h
    · split at h
      · rw [← Except.ok.inj h]
        exact List.mem_cons_self _ _
      · exact Except.noConfusion h
  have hr : run_cast_vote_tx env c1 m cand2 = Except.error Err.DuplicateVote := by
    rw [run_cast_vote_tx_eq, if_pos hmem]
  refine ⟨hr, by rw [hr]; rfl, fun cand => by rw [hr]; rfl⟩

/-- C3 witness: after voter 5's committed vote for candidate 3 on the fresh
ledger, voter 5's second attempt for candidate 9 fails with `DuplicateVote`
and changes nothing. -/
theorem second_vote_rejected_duplicate_witness :
    run_cast_vote_tx env0 chain1 5 9 = Except.error Err.DuplicateVote ∧
    commitChain chain1 (run_cast_vote_tx env0 chain1 5 9) = chain1 ∧
    ∀ cand, get_vote (commitChain chain1 (run_cast_vote_tx env0 chain1 5 9)).state cand =
      get_vote chain1.state cand :=
  second_vote_rejected_duplicate env0 openChain chain1 5 3 9 rfl

/-- C4: while voting is open, `add_to_tally_public` succeeds, increments the
chosen candidate's tally by exactly 1 (slots read 0 before first write),
leaves every other candidate's count unchanged, and leaves `admin`,
`vote_ended` and `active_at_block` as they were. -/
theorem add_to_tally_public_increments (s : State) (cand : Nat)
    (h : s.vote_ended = false) :
    ∃ s2, add_to_tally_public s cand = Except.ok s2 ∧
      get_vote s2 cand = get_vote s cand + 1 ∧
      (∀ c, c ≠ cand → get_vote s2 c = get_vote s c) ∧
      get_admin s2 = get_admin s ∧
      get_vote_ended s2 = get_vote_ended s ∧
      get_active_at_block s2 = get_active_at_block s := by
  refine ⟨{ s with tally := Function.update s.tally cand (s.tally cand + 1) },
    ?_, ?_, ?_, rfl, rfl, rfl⟩
  · simp [add_to_tally_public, h]
  · simp [get_vote]
  · intro c hc
    simp [get_vote, Function.update, hc]

/-- C4 witness: on the freshly constructed state, one vote for candidate 2
succeeds and moves its tally from 0 to 1. -/
theorem add_to_tally_public_increments_witness :
    ∃ s2, add_to_tally_public (constructor 7 3) 2 = Except.ok s2 ∧
      get_vote s2 2 = get_vote (constructor 7 3) 2 + 1 ∧
      (∀ c, c ≠ 2 → get_vote s2 c = get_vote (constructor 7 3) c) ∧
      get_admin s2 = get_admin (constructor 7 3) ∧
      get_vote_ended s2 = get_vote_ended (constructor 7 3) ∧
      get_active_at_block s2 = get_active_at_block (constructor 7 3) :=
  add_to_tally_public_increments (constructor 7 3) 2 rfl

/-- C5: `end_vote` succeeds exactly when the caller is the stored admin; a
non-admin call fails with `Unauthorized` and, after the host rolls the
failed call back, the state (in particular `get_vote_ended`) is unchanged;
an admin call writes `vote_ended := true`. -/
theorem end_vote_authorization (s : State) (m : Nat) :
    ((∃ s2, end_vote s m = Except.ok s2) ↔ m = s.admin) ∧
    (m = s.admin → end_vote s m = Except.ok { s with vote_ended := true }) ∧
    (m ≠ s.admin →
      end_vote s m = Except.error Err.Unauthorized ∧
      commitState s (end_vote s m) = s ∧
      get_vote_ended (commitState s (end_vote s m)) = get_vote_ended s) := by
  by_cases h : s.admin = m
  · have he : end_vote s m = Except.ok { s with vote_ended := true } := by
      simp [end_vote, h]
    exact ⟨⟨fun _ => h.symm, fun _ => ⟨_, he⟩⟩, fun _ => he,
      fun hne => absurd h.symm hne⟩
  · have he : end_vote s m = Except.error Err.Unauthorized := by
      simp [end_vote, h]
    refine ⟨⟨?_, ?_⟩, ?_, ?_⟩
    · rintro ⟨s2, hs2⟩
      rw [he] at hs2
      exact Except.noConfusion hs2
    · intro hm
      exact absurd hm.symm h
    · intro hm
      exact absurd hm.symm h
    · intro _
      exact ⟨he, by rw [he]; rfl, by rw [he]; rfl⟩

/-- C7: construction stores the given admin, starts with voting open, and
records the construction-time block number, for every admin identity. -/
theorem constructor_initializes (admin block_number : Nat) :
    get_admin (constructor admin block_number) = admin ∧
    get_vote_ended (constructor admin block_number) = false ∧
    get_active_at_block (constructor admin block_number) = block_number :=
  ⟨rfl, rfl, rfl⟩

/-- C8: the four view accessors are pure reads — as committed operations
they leave the ledger untouched; `get_vote` on a candidate no one has voted
for reads 0 rather than failing; and reading a tally twice with no
intervening vote gives the same value both times. -/
theorem view_accessors_pure (env : PrivateEnv) (c : Chain) (a b cand : Nat) :
    stepChain env c (Op.viewVote cand) = c ∧
    stepChain env c Op.viewVoteEnded = c ∧
    stepChain env c Op.viewAdmin = c ∧
    stepChain env c Op.viewActiveAtBlock = c ∧
    get_vote (constructor a b) cand = 0 ∧
    get_vote (stepChain env c (Op.viewVote cand)).state cand = get_vote c.state cand :=
  ⟨rfl, rfl, rfl, rfl, rfl, rfl⟩

/-- C9: the already-ended guard in `end_vote` is commented out (main.nr
line 51), so a repeated `end_vote` by the admin after voting has ended does
not fail: it succeeds and rewrites `vote_ended` to `true`, leaving the
observable state exactly as it was — a silent no-op, not an error. -/
theorem end_vote_repeat_is_noop (s : State) (m : Nat)
    (hadmin : m = s.admin) (hended : s.vote_ended = true) :
    end_vote s m = Except.ok s ∧
    get_vote_ended (commitState s (end_vote s m)) = true := by
  obtain ⟨a, t, v, b⟩ := s
  have hv : v = true := hended
  subst hv
  have hm : m = a := hadmin
  have he : end_vote ⟨a, t, true, b⟩ m = Except.ok ⟨a, t, true, b⟩ := by
    simp [end_vote, hm]
  exact ⟨he, by rw [he]; rfl⟩

/-- C9 witness: on the concrete ended state with admin 7, a repeated
`end_vote` by the admin succeeds and changes nothing observable. -/
theorem end_vote_repeat_is_noop_witness :
    end_vote endedState 7 = Except.ok endedState ∧
    get_vote_ended (commitState endedState (end_vote endedState 7)) = true :=
  end_vote_repeat_is_noop endedState 7 rfl rfl

/-- Helper for the temporal claims: no single committed operation ever takes
`vote_ended` from `true` back to `false`. -/
theorem stepChain_vote_ended_monotone (env : PrivateEnv) (c : Chain) (op : Op)
    (h : c.state.vote_ended = true) :
    (stepChain env c op).state.vote_ended = true := by
  cases op with
  | castVote m cand =>
      simp only [stepChain]
      rw [run_cast_vote_tx_eq]
      by_cases hmem : nullifier_of env m ∈ c.nullifiers
      · rw [if_pos hmem]
        exact h
      · rw [if_neg hmem]
        have hadd : add_to_tally_public c.state cand = Except.error Err.VotingEnded := by
          simp [add_to_tally_public, h]
        rw [hadd]
        exact h
  | endVote m =>
      simp only [stepChain]
      by_cases hm : c.state.admin = m
      · have he : end_vote c.state m = Except.ok { c.state with vote_ended := true } := by
          simp [end_vote, hm]
        rw [he]
        rfl
      · have he : end_vote c.state m = Except.error Err.Unauthorized := by
          simp [end_vote, hm]
        rw [he]
        exact h
  | viewVote cand => exact h
  | viewVoteEnded => exact h
  | viewAdmin => exact h
  | viewActiveAtBlock => exact h

/-- C6: `vote_ended` starts out `false` at construction, and the `Ended`
state is terminal — from any ledger whose flag is `true`, no sequence of
committed operations ever brings it back to `false`, so the flag can cross
`false → true` at most once along any execution. -/
theorem vote_ended_terminal (env : PrivateEnv) (c : Chain) (ops : List Op) (a b : Nat) :
    get_vote_ended (constructor a b) = false ∧
    (get_vote_ended c.state = true → get_vote_ended (runOps env c ops).state = true) := by
  refine ⟨rfl, ?_⟩
  induction ops generalizing c with
  | nil => exact fun h => h
  | cons op ops ih =>
      intro h
      exact ih (stepChain env c op) (stepChain_vote_ended_monotone env c op h)

/-- C10: every committed operation leaves every candidate's tally at least
as large as before — votes only ever add, `end_vote` and the views never
touch the tally, and failed transactions roll back to the old ledger; no
operation decreases or clears a tally entry. -/
theorem tally_monotone (env : PrivateEnv) (c : Chain) (op : Op) (cand : Nat) :
    get_vote c.state cand ≤ get_vote (stepChain env c op).state cand := by
  cases op with
  | castVote m cand2 =>
      simp only [stepChain]
      rw [run_cast_vote_tx_eq]
      by_cases hmem : nullifier_of env m ∈ c.nullifiers
      · rw [if_pos hmem]
        exact le_refl _
      · rw [if_neg hmem]
        by_cases hv : c.state.vote_ended = false
        · have hadd : add_to_tally_public c.state cand2 =
              Except.ok { c.state with
                tally := Function.update c.state.tally cand2 (c.state.tally cand2 + 1) } := by
            simp [add_to_tally_public, hv]
          rw [hadd]
          show get_vote c.state cand ≤
            Function.update c.state.tally cand2 (c.state.tally cand2 + 1) cand
          by_cases hc : cand = cand2
          · subst hc
            simp [get_vote]
          · simp [get_vote, Function.update, hc]
        · have hadd : add_to_tally_public c.state cand2 = Except.error Err.VotingEnded := by
            simp [add_to_tally_public, hv]
          rw [hadd]
          exact le_refl _
  | endVote m =>
      simp only [stepChain]
      by_cases hm : c.state.admin = m
      · have he : end_vote c.state m = Except.ok { c.state with vote_ended := true } := by
          simp [end_vote, hm]
        rw [he]
        exact le_refl _
      · have he : end_vote c.state m = Except.error Err.Unauthorized := by
          simp [end_vote, hm]
        rw [he]
        exact le_refl _
  | viewVote cand2 => exact le_refl _
  | viewVoteEnded => exact le_refl _
  | viewAdmin => exact le_refl _
  | viewActiveAtBlock => exact le_refl _

end EasyPrivateVoting
